import Mathlib

/-!
Shallow embedding of the scheduling and retention core of
`src/backup.ts` and the process entry point (`main`), together with
theorems checking the specification's claims about them.

Timestamps are modelled as `Int` milliseconds since the epoch
(JavaScript `Date.getTime()`).  Fallible steps (the dump, the S3 put,
the S3 list/delete calls, the local `unlink`) are modelled by outcome
parameters; a rejected promise is an `Except.error`.
-/

namespace PgBackups

/-- The four backup cadences (`type BackupFrequency`, backup.ts line 12).
`'10min'` is written `tenMin`. -/
inductive BackupFrequency where
  | tenMin
  | hourly
  | daily
  | weekly
deriving DecidableEq, BEq, Repr

/-- The string name of a cadence as it appears in S3 keys. -/
def BackupFrequency.name : BackupFrequency → String
  | .tenMin => "10min"
  | .hourly => "hourly"
  | .daily => "daily"
  | .weekly => "weekly"

/-- `interface BackupInterval` (backup.ts lines 14-17). -/
structure BackupInterval where
  frequency : BackupFrequency
  milliseconds : Int
deriving DecidableEq, Repr

/-- `BACKUP_INTERVALS` (backup.ts lines 19-24), in declared order. -/
def BACKUP_INTERVALS : List BackupInterval :=
  [ ⟨.weekly, 7 * 24 * 60 * 60 * 1000⟩,
    ⟨.daily, 24 * 60 * 60 * 1000⟩,
    ⟨.hourly, 60 * 60 * 1000⟩,
    ⟨.tenMin, 10 * 60 * 1000⟩ ]

/-- The `lastBackupTimes` map (backup.ts line 27): per cadence, the
timestamp of the last successful backup, if any (`Map.get` of an absent
key is `undefined`, here `none`). -/
def DueMap : Type := BackupFrequency → Option Int

/-- `lastBackupTimes.set(frequency, date)`. -/
def mapSet (m : DueMap) (frequency : BackupFrequency) (t : Int) : DueMap :=
  fun g => if g = frequency then some t else m g

/-- `BACKUP_INTERVALS.find(i => i.frequency === frequency)!.milliseconds`
(backup.ts line 66).  The non-null assertion is modelled by a default of
0 on the unreachable `none` branch. -/
def intervalMilliseconds (frequency : BackupFrequency) : Int :=
  match BACKUP_INTERVALS.find? (fun i => i.frequency == frequency) with
  | some i => i.milliseconds
  | none => 0

/-- `shouldRunBackup` (backup.ts lines 60-70): with no recorded last
backup run immediately; otherwise run when the elapsed time since the
last backup is at least the interval. -/
def shouldRunBackup (lastBackupTimes : DueMap) (frequency : BackupFrequency)
    (now : Int) : Bool :=
  match lastBackupTimes frequency with
  | none => true
  | some lastBackup => decide (now - lastBackup ≥ intervalMilliseconds frequency)

/-- One object of an S3 `ListObjectsV2` response: `Key` and
`LastModified` are both optional in the S3 API. -/
structure S3Object where
  key : Option String
  lastModified : Option Int
deriving DecidableEq, Repr

/-- `(o.LastModified?.getTime() || 0)` — the sort key used at backup.ts
lines 44 and 153; a missing `LastModified` counts as 0 (and `|| 0` maps
a genuine epoch time 0 to 0, the same value). -/
def lastModifiedTime (o : S3Object) : Int :=
  o.lastModified.getD 0

/-- The comparator `(a, b) => b.LastModified?.getTime() - a.LastModified?.getTime()`:
`a` sorts no later than `b` when `b`'s time is at most `a`'s. -/
def timeDescRel (a b : S3Object) : Prop :=
  lastModifiedTime b ≤ lastModifiedTime a

instance : DecidableRel timeDescRel := fun a b =>
  inferInstanceAs (Decidable (lastModifiedTime b ≤ lastModifiedTime a))

instance : IsTotal S3Object timeDescRel :=
  ⟨fun a b => le_total (lastModifiedTime b) (lastModifiedTime a)⟩

instance : IsTrans S3Object timeDescRel :=
  ⟨fun _ _ _ h1 h2 => le_trans h2 h1⟩

/-- `contents.sort((a, b) => (b.LastModified?.getTime() || 0) - (a.LastModified?.getTime() || 0))`
(backup.ts lines 43-44 and 152-153): stable sort, newest first. -/
def sortByLastModifiedDesc (objects : List S3Object) : List S3Object :=
  List.insertionSort timeDescRel objects

/-- Outcome of one `ListObjectsV2Command` send: the promise rejected
(`failure`), or resolved with an optional `Contents` array. -/
inductive ListObjectsResult where
  | failure
  | success (contents : Option (List S3Object))

/-- One iteration of the seeding loop in `getLastBackupTimes`
(backup.ts lines 33-55): on a rejected listing the error is caught and
the cadence skipped; on a response whose `Contents` is non-empty, sort
newest-first and record the first object's `LastModified` when present. -/
def seedCadence : ListObjectsResult → Option Int
  | .failure => none
  | .success none => none
  | .success (some contents) =>
    if contents.length > 0 then
      match sortByLastModifiedDesc contents with
      | [] => none
      | first :: _ => first.lastModified
    else none

/-- `getLastBackupTimes` (backup.ts lines 29-58): fold the seeding loop
over `BACKUP_INTERVALS`, starting from the empty map. -/
def getLastBackupTimes (listings : BackupFrequency → ListObjectsResult) : DueMap :=
  BACKUP_INTERVALS.foldl
    (fun result interval =>
      match seedCadence (listings interval.frequency) with
      | some t => mapSet result interval.frequency t
      | none => result)
    (fun _ => none)

/-- The per-object delete loop of `cleanupOldBackups` (backup.ts lines
158-166): objects without a `Key` are skipped; each delete is a
`client.send` with no surrounding try/catch, so a rejected delete
propagates out of the loop.  Returns the keys for which a delete was
attempted, in order, and whether the loop completed or threw. -/
def deleteLoop (deleteSucceeds : String → Bool) :
    List S3Object → List String × Except Unit Unit
  | [] => ([], Except.ok ())
  | o :: rest =>
    match o.key with
    | none => deleteLoop deleteSucceeds rest
    | some k =>
      if deleteSucceeds k then
        let r := deleteLoop deleteSucceeds rest
        (k :: r.1, r.2)
      else
        ([k], Except.error ())

/-- `cleanupOldBackups` (backup.ts lines 140-167): list the cadence's
prefix (a rejected list propagates), return early when `Contents` is
absent, sort newest-first, keep `BACKUP_RETENTION_COUNT` via
`slice(retentionCount)`, and delete the rest one at a time. -/
def cleanupOldBackups (deleteSucceeds : String → Bool)
    (listResult : ListObjectsResult) (retentionCount : Nat) :
    List String × Except Unit Unit :=
  match listResult with
  | .failure => ([], Except.error ())
  | .success none => ([], Except.ok ())
  | .success (some contents) =>
    deleteLoop deleteSucceeds ((sortByLastModifiedDesc contents).drop retentionCount)

/-- The environment-dependent outcomes of the fallible steps of one
backup cycle: `dumpToFile`, the `Upload(...).done()` put, the cleanup
pass's list call and per-key deletes, and the local `unlink`. -/
structure CycleOutcome where
  dumpOk : Bool
  uploadPutOk : Bool
  cleanupList : ListObjectsResult
  remoteDeleteOk : String → Bool
  localDeleteOk : Bool

/-- `uploadToS3` (backup.ts lines 169-211): the put, then
`cleanupOldBackups` for the same cadence; an error from either
propagates to the caller. -/
def uploadToS3 (out : CycleOutcome) (retentionCount : Nat) : Except Unit Unit := do
  if out.uploadPutOk then pure () else throw ()
  (cleanupOldBackups out.remoteDeleteOk out.cleanupList retentionCount).2

/-- The body of `runBackup`'s `try` block (backup.ts lines 81-84):
dump, upload (which includes cleanup), then delete the local file; the
first rejection aborts the rest. -/
def runBackupTry (out : CycleOutcome) (retentionCount : Nat) : Except Unit Unit := do
  if out.dumpOk then pure () else throw ()
  uploadToS3 out retentionCount
  if out.localDeleteOk then pure () else throw ()

/-- `runBackup` (backup.ts lines 72-89): `now` is the single
`new Date()` taken at the start of the run.  When the `try` block
completes, record `now` for this cadence; any error is caught at line
86 and the map is left unchanged, so `runBackup` itself never throws. -/
def runBackup (st : DueMap) (frequency : BackupFrequency) (now : Int)
    (out : CycleOutcome) (retentionCount : Nat) : DueMap :=
  match runBackupTry out retentionCount with
  | .ok _ => mapSet st frequency now
  | .error _ => st

/-- `backup` (backup.ts lines 135-138): a manual backup runs
`runBackup('10min')`. -/
def backup (st : DueMap) (now : Int) (out : CycleOutcome)
    (retentionCount : Nat) : DueMap :=
  runBackup st .tenMin now out retentionCount

/-- One iteration of the per-cadence body of the tick loop (backup.ts
lines 122-127): check `shouldRunBackup` and, when due, run the backup.
`nowAt frequency` is the instant at which this cadence is checked and
run (the source takes two `new Date()` readings milliseconds apart,
lines 123 and 75; the embedding uses one instant per cadence). -/
def tickStep (nowAt : BackupFrequency → Int)
    (outcomes : BackupFrequency → CycleOutcome) (retentionCount : Nat)
    (st : DueMap) (interval : BackupInterval) : DueMap :=
  if shouldRunBackup st interval.frequency (nowAt interval.frequency) then
    runBackup st interval.frequency (nowAt interval.frequency)
      (outcomes interval.frequency) retentionCount
  else st

/-- One full tick of the scheduler loop (backup.ts lines 122-127): the
cadences are processed strictly sequentially, in the declared order of
`BACKUP_INTERVALS`. -/
def processTick (st : DueMap) (nowAt : BackupFrequency → Int)
    (outcomes : BackupFrequency → CycleOutcome) (retentionCount : Nat) : DueMap :=
  BACKUP_INTERVALS.foldl (tickStep nowAt outcomes retentionCount) st

/-- `${env.BUCKET_SUBFOLDER}/` or the empty string (backup.ts lines 106
and 184). -/
def bucketPfx (subfolder : Option String) : String :=
  match subfolder with
  | some s => s ++ "/"
  | none => ""

/-- The destination key `${prefix}${frequency}/${name}` of the upload
(backup.ts line 185). -/
def s3Key (subfolder : Option String) (frequency : BackupFrequency)
    (filename : String) : String :=
  bucketPfx subfolder ++ frequency.name ++ "/" ++ filename

/-- The listing prefix `${prefix}${frequency}/` used by the cleanup
pass (backup.ts line 145) and by seeding (line 36). -/
def cadencePfx (subfolder : Option String) (frequency : BackupFrequency) : String :=
  bucketPfx subfolder ++ frequency.name ++ "/"

/-- The configuration flags consulted by `main` (index file, line 294). -/
structure EnvFlags where
  runOnStartup : Bool
  singleShotMode : Bool

/-- `tryBackup` (index file, lines 271-278): await `backup()` and exit
with code 1 if it rejects.  `backup()` is `runBackup('10min')`, whose
try/catch consumes every pipeline error (backup.ts lines 86-88), so the
promise always resolves: the embedded result carries the new map and
`none` for "no exit", the catch branch being unreachable. -/
def tryBackup (st : DueMap) (now : Int) (out : CycleOutcome)
    (retentionCount : Nat) : DueMap × Option Nat :=
  (backup st now out retentionCount, none)

/-- What the process did: exited with a code, or entered the
never-returning scheduler loop. -/
inductive ProcessFate where
  | exited (code : Nat)
  | enteredScheduler
deriving DecidableEq, Repr

/-- Observable outcome of `main` up to the point where it exits or
enters the tick loop: the fate, the number of backup cycles run before
that point, and the due map at that point. -/
structure MainOutcome where
  fate : ProcessFate
  cyclesRun : Nat
  finalState : DueMap

/-- `main` (index file, lines 292-309): with `RUN_ON_STARTUP` or
`SINGLE_SHOT_MODE` set, run one `tryBackup` cycle; in single-shot mode
then exit 0; otherwise fall through to `startBackupScheduler`. -/
def main (flags : EnvFlags) (st : DueMap) (now : Int) (out : CycleOutcome)
    (retentionCount : Nat) : MainOutcome :=
  if flags.runOnStartup || flags.singleShotMode then
    let r := tryBackup st now out retentionCount
    match r.2 with
    | some code => ⟨.exited code, 1, r.1⟩
    | none =>
      if flags.singleShotMode then ⟨.exited 0, 1, r.1⟩
      else ⟨.enteredScheduler, 1, r.1⟩
  else ⟨.enteredScheduler, 0, st⟩

/-! ## Basic lemmas -/

/-- Every cadence's interval is positive. -/
theorem interval_pos (f : BackupFrequency) : 0 < intervalMilliseconds f := by
  cases f <;> decide

/-- On success, `runBackup` records `now` for its cadence. -/
theorem runBackup_self_of_ok (st : DueMap) (f : BackupFrequency) (now : Int)
    (out : CycleOutcome) (retentionCount : Nat)
    (hok : runBackupTry out retentionCount = Except.ok ()) :
    runBackup st f now out retentionCount f = some now := by
  simp [runBackup, hok, mapSet]

/-- On failure, `runBackup` returns the map unchanged. -/
theorem runBackup_of_error (st : DueMap) (f : BackupFrequency) (now : Int)
    (out : CycleOutcome) (retentionCount : Nat)
    (herr : runBackupTry out retentionCount = Except.error ()) :
    runBackup st f now out retentionCount = st := by
  simp [runBackup, herr]

/-- `runBackup` never touches another cadence's entry. -/
theorem runBackup_other (st : DueMap) (f g : BackupFrequency) (now : Int)
    (out : CycleOutcome) (retentionCount : Nat) (hne : g ≠ f) :
    runBackup st f now out retentionCount g = st g := by
  unfold runBackup
  cases runBackupTry out retentionCount with
  | ok _ => simp [mapSet, hne]
  | error _ => rfl

/-- `shouldRunBackup` depends only on the checked cadence's own entry. -/
theorem shouldRunBackup_congr (st1 st2 : DueMap) (f : BackupFrequency) (now : Int)
    (h : st1 f = st2 f) :
    shouldRunBackup st1 f now = shouldRunBackup st2 f now := by
  unfold shouldRunBackup
  rw [h]

/-- A successful cycle outcome, used to instantiate witnesses. -/
def cycleOk : CycleOutcome :=
  ⟨true, true, .success none, fun _ => true, true⟩

/-- The sort used by seeding and cleanup is newest-first. -/
theorem sorted_sortByLastModifiedDesc (l : List S3Object) :
    List.Sorted timeDescRel (sortByLastModifiedDesc l) :=
  List.sorted_insertionSort timeDescRel l

/-- The sort is a permutation of its input. -/
theorem perm_sortByLastModifiedDesc (l : List S3Object) :
    (sortByLastModifiedDesc l).Perm l :=
  List.perm_insertionSort timeDescRel l

/-- The first element of the newest-first sort has the maximal
last-modified time of the whole listing. -/
theorem sortDesc_head_max (l : List S3Object) (o : S3Object) (rest : List S3Object)
    (h : sortByLastModifiedDesc l = o :: rest) :
    ∀ x ∈ l, lastModifiedTime x ≤ lastModifiedTime o := by
  intro x hx
  have hxs : x ∈ sortByLastModifiedDesc l :=
    (perm_sortByLastModifiedDesc l).symm.subset hx
  rw [h] at hxs
  rcases List.mem_cons.mp hxs with hxo | hxr
  · exact le_of_eq (by rw [hxo])
  · have hs := sorted_sortByLastModifiedDesc l
    rw [h] at hs
    exact List.rel_of_sorted_cons hs x hxr

/-- The head of the sort is an element of the listing. -/
theorem sortDesc_head_mem (l : List S3Object) (o : S3Object) (rest : List S3Object)
    (h : sortByLastModifiedDesc l = o :: rest) : o ∈ l := by
  have : o ∈ sortByLastModifiedDesc l := by
    rw [h]; exact List.mem_cons_self o rest
  exact (perm_sortByLastModifiedDesc l).subset this

/-- The seeding fold touches each cadence exactly once, so the seeded
map is `seedCadence` of that cadence's own listing. -/
theorem getLastBackupTimes_apply (listings : BackupFrequency → ListObjectsResult)
    (f : BackupFrequency) :
    getLastBackupTimes listings f = seedCadence (listings f) := by
  unfold getLastBackupTimes BACKUP_INTERVALS
  simp only [List.foldl]
  cases hW : seedCadence (listings .weekly) <;>
    cases hD : seedCadence (listings .daily) <;>
      cases hH : seedCadence (listings .hourly) <;>
        cases hT : seedCadence (listings .tenMin) <;>
          cases f <;>
            simp [mapSet, hW, hD, hH, hT]

/-! ## Claim theorems -/

/-- C6: the due-ness predicate: a cadence with no recorded last backup
is always due; a cadence with recorded last backup `t` is due iff
`now - t ≥ duration`, boundary inclusive.  (`shouldRunBackup` is a pure
function of the map and `now`, so it has no side effects on the
due-state.) -/
theorem shouldRunBackup_spec (st : DueMap) (f : BackupFrequency) (now : Int) :
    (st f = none → shouldRunBackup st f now = true) ∧
    (∀ t, st f = some t →
      (shouldRunBackup st f now = true ↔ now - t ≥ intervalMilliseconds f)) := by
  constructor
  · intro h
    simp [shouldRunBackup, h]
  · intro t h
    simp [shouldRunBackup, h]

/-- Witness for C6: an empty map makes the hourly cadence due at time 0. -/
theorem shouldRunBackup_spec_witness :
    ((fun _ => none : DueMap) .hourly = none) ∧
    shouldRunBackup (fun _ => none) .hourly 0 = true :=
  ⟨rfl, (shouldRunBackup_spec (fun _ => none) .hourly 0).1 rfl⟩

/-- C5: seeding sets a cadence's due-state to the maximum last-modified
timestamp among the objects listed under its prefix, for every
non-empty listing in any order; a failed listing, an absent `Contents`
field, or an empty listing leaves the cadence unset. -/
theorem seeding_sets_max (listings : BackupFrequency → ListObjectsResult)
    (f : BackupFrequency) :
    (∀ contents, listings f = .success (some contents) → contents ≠ [] →
      (∀ o ∈ contents, o.lastModified.isSome) →
      ∃ m, getLastBackupTimes listings f = some m ∧
        some m ∈ contents.map S3Object.lastModified ∧
        ∀ o ∈ contents, lastModifiedTime o ≤ m) ∧
    ((listings f = .failure ∨ listings f = .success none ∨
        listings f = .success (some [])) →
      getLastBackupTimes listings f = none) := by
  constructor
  · intro contents hls hne hall
    rw [getLastBackupTimes_apply, hls]
    have hlen : contents.length > 0 := List.length_pos.mpr hne
    have hslen : (sortByLastModifiedDesc contents).length = contents.length :=
      (perm_sortByLastModifiedDesc contents).length_eq
    cases hsort : sortByLastModifiedDesc contents with
    | nil =>
      rw [hsort] at hslen
      simp at hslen
      omega
    | cons first rest =>
      have hmem : first ∈ contents := sortDesc_head_mem contents first rest hsort
      have hfs : first.lastModified.isSome := hall first hmem
      obtain ⟨m, hm⟩ := Option.isSome_iff_exists.mp hfs
      refine ⟨m, ?_, ?_, ?_⟩
      · simp [seedCadence, hlen, hsort, hm]
      · rw [← hm]
        exact List.mem_map_of_mem S3Object.lastModified hmem
      · intro o ho
        have hle := sortDesc_head_max contents first rest hsort o ho
        have hfm : lastModifiedTime first = m := by
          simp [lastModifiedTime, hm]
        rw [← hfm]
        exact hle
  · intro h
    rcases h with h | h | h <;> rw [getLastBackupTimes_apply, h] <;> simp [seedCadence]

/-- A concrete non-empty hourly listing, out of timestamp order, for the
seeding witness. -/
def seedContents : List S3Object :=
  [⟨some "h1", some 100⟩, ⟨some "h3", some 300⟩, ⟨some "h2", some 200⟩]

/-- Listings where only the hourly cadence's prefix has objects. -/
def seedListings : BackupFrequency → ListObjectsResult := fun f =>
  match f with
  | .hourly => .success (some seedContents)
  | _ => .failure

/-- Witness for C5: seeding the concrete hourly listing records its
maximal timestamp. -/
theorem seeding_sets_max_witness :
    seedContents ≠ [] ∧
    ∃ m, getLastBackupTimes seedListings .hourly = some m ∧
      some m ∈ seedContents.map S3Object.lastModified ∧
      ∀ o ∈ seedContents, lastModifiedTime o ≤ m :=
  ⟨by decide,
    (seeding_sets_max seedListings .hourly).1 seedContents rfl (by decide) (by decide)⟩

/-- C4: immediately after a successful trigger, `shouldRunBackup` at
the same instant is false for that cadence, and it is true again
exactly when the elapsed time since the recorded success timestamp is
at least the cadence's duration. -/
theorem dueness_after_success (st : DueMap) (f : BackupFrequency) (now : Int)
    (out : CycleOutcome) (retentionCount : Nat)
    (hok : runBackupTry out retentionCount = Except.ok ()) :
    shouldRunBackup (runBackup st f now out retentionCount) f now = false ∧
    ∀ t, shouldRunBackup (runBackup st f now out retentionCount) f t = true ↔
      t - now ≥ intervalMilliseconds f := by
  have hst := runBackup_self_of_ok st f now out retentionCount hok
  constructor
  · simp only [shouldRunBackup, hst]
    have := interval_pos f
    simp
    omega
  · intro t
    simp only [shouldRunBackup, hst]
    simp

/-- Witness for C4: a concrete successful cycle at time 1000. -/
theorem dueness_after_success_witness :
    runBackupTry cycleOk 5 = Except.ok () ∧
    shouldRunBackup (runBackup (fun _ => none) .hourly 1000 cycleOk 5) .hourly 1000
      = false :=
  ⟨rfl, (dueness_after_success (fun _ => none) .hourly 1000 cycleOk 5 rfl).1⟩

/-- With every key present, `filterMap` over keys drops nothing. -/
theorem filterMap_key_length (l : List S3Object) (hk : ∀ o ∈ l, o.key.isSome) :
    (l.filterMap S3Object.key).length = l.length := by
  induction l with
  | nil => rfl
  | cons o rest ih =>
    obtain ⟨k, hkk⟩ := Option.isSome_iff_exists.mp (hk o (List.mem_cons_self o rest))
    rw [List.filterMap_cons, hkk]
    simp [ih (fun x hx => hk x (List.mem_cons_of_mem o hx))]

/-- When every delete succeeds, the loop attempts exactly the keys of
its input, in order, and completes. -/
theorem deleteLoop_all_ok (del : String → Bool) (l : List S3Object)
    (hd : ∀ k, del k = true) :
    deleteLoop del l = (l.filterMap S3Object.key, Except.ok ()) := by
  induction l with
  | nil => rfl
  | cons o rest ih =>
    cases hk : o.key with
    | none => simp [deleteLoop, hk, List.filterMap_cons, ih]
    | some k => simp [deleteLoop, hk, hd k, List.filterMap_cons, ih]

/-- The delete loop attempts keys in order and stops at the first
failing delete: the keys of the successful prefix, then the failing
key, and nothing after it; the rejection propagates. -/
theorem deleteLoop_stops_at_failure (del : String → Bool)
    (l1 l2 : List S3Object) (o : S3Object) (k : String)
    (hpre : ∀ x ∈ l1, ∃ kx, x.key = some kx ∧ del kx = true)
    (hk : o.key = some k) (hfail : del k = false) :
    deleteLoop del (l1 ++ o :: l2)
      = (l1.filterMap S3Object.key ++ [k], Except.error ()) := by
  induction l1 with
  | nil => simp [deleteLoop, hk, hfail]
  | cons x rest ih =>
    obtain ⟨kx, hkx, hdx⟩ := hpre x (List.mem_cons_self x rest)
    simp [deleteLoop, hkx, hdx, List.filterMap_cons,
      ih (fun y hy => hpre y (List.mem_cons_of_mem x hy))]

/-- C7: a cleanup pass over `M > N` objects with retention count `N`
orders the listing newest-first, attempts a delete for exactly the
`M − N` objects past the first `N`, and every kept object is at least
as new as every deleted one (all deletes succeeding, all keys present). -/
theorem cleanup_selects_oldest (contents : List S3Object) (del : String → Bool)
    (retentionCount : Nat)
    (hM : retentionCount < contents.length)
    (hkeys : ∀ o ∈ contents, o.key.isSome)
    (hdel : ∀ k, del k = true) :
    List.Sorted timeDescRel (sortByLastModifiedDesc contents) ∧
    (sortByLastModifiedDesc contents).Perm contents ∧
    (cleanupOldBackups del (.success (some contents)) retentionCount).1
      = ((sortByLastModifiedDesc contents).drop retentionCount).filterMap S3Object.key ∧
    (cleanupOldBackups del (.success (some contents)) retentionCount).1.length
      = contents.length - retentionCount ∧
    ∀ a ∈ (sortByLastModifiedDesc contents).take retentionCount,
      ∀ b ∈ (sortByLastModifiedDesc contents).drop retentionCount,
        lastModifiedTime b ≤ lastModifiedTime a := by
  have hperm := perm_sortByLastModifiedDesc contents
  have hsorted := sorted_sortByLastModifiedDesc contents
  have hcl : cleanupOldBackups del (.success (some contents)) retentionCount
      = (((sortByLastModifiedDesc contents).drop retentionCount).filterMap S3Object.key,
         Except.ok ()) := by
    unfold cleanupOldBackups
    exact deleteLoop_all_ok del _ hdel
  refine ⟨hsorted, hperm, by rw [hcl], ?_, ?_⟩
  · rw [hcl]
    have hkeys2 : ∀ o ∈ (sortByLastModifiedDesc contents).drop retentionCount,
        o.key.isSome :=
      fun o ho => hkeys o (hperm.subset (List.mem_of_mem_drop ho))
    rw [filterMap_key_length _ hkeys2, List.length_drop, hperm.length_eq]
  · intro a ha b hb
    have hpw : List.Pairwise timeDescRel (sortByLastModifiedDesc contents) := hsorted
    rw [← List.take_append_drop retentionCount (sortByLastModifiedDesc contents)] at hpw
    exact (List.pairwise_append.mp hpw).2.2 a ha b hb

/-- A concrete listing for the cleanup witnesses, out of timestamp
order on purpose. -/
def cleanupContents : List S3Object :=
  [⟨some "b", some 1⟩, ⟨some "a", some 3⟩, ⟨some "c", some 2⟩]

/-- Witness for C7: with retention 1 over 3 objects, exactly 2 deletes
are attempted. -/
theorem cleanup_selects_oldest_witness :
    1 < cleanupContents.length ∧
    (cleanupOldBackups (fun _ => true) (.success (some cleanupContents)) 1).1.length
      = cleanupContents.length - 1 :=
  ⟨by decide,
    (cleanup_selects_oldest cleanupContents (fun _ => true) 1 (by decide)
      (by decide) (fun _ => rfl)).2.2.2.1⟩

/-- Counterexample for C2 as stated: sorted newest-first the listing is
`a(3), c(2), b(1)`; with retention 1 the excess is `[c, b]`.  When the
delete of `"c"` fails, the delete of `"b"` is never attempted and the
error propagates out of the cleanup pass. -/
theorem cleanup_abort_counterexample :
    ((cleanupOldBackups (fun k => k != "c") (.success (some cleanupContents)) 1).1
      = ["c"]) ∧
    ("b" ∉ (cleanupOldBackups (fun k => k != "c")
      (.success (some cleanupContents)) 1).1) ∧
    ((cleanupOldBackups (fun k => k != "c") (.success (some cleanupContents)) 1).2
      = Except.error ()) :=
  ⟨by decide, by decide, rfl⟩

/-- C2 amended: a failing delete aborts the cleanup pass — deletes are
attempted in newest-first order up to and including the first failing
object, the rejection propagates, and the excess objects after the
failing one are not attempted in this pass. -/
theorem cleanup_abort_on_delete_failure (del : String → Bool)
    (contents l1 l2 : List S3Object) (o : S3Object) (k : String)
    (retentionCount : Nat)
    (hsplit : (sortByLastModifiedDesc contents).drop retentionCount = l1 ++ o :: l2)
    (hpre : ∀ x ∈ l1, ∃ kx, x.key = some kx ∧ del kx = true)
    (hk : o.key = some k) (hfail : del k = false) :
    (cleanupOldBackups del (.success (some contents)) retentionCount
      = (l1.filterMap S3Object.key ++ [k], Except.error ())) ∧
    (l2 ≠ [] →
      (cleanupOldBackups del (.success (some contents)) retentionCount).1.length
        < ((sortByLastModifiedDesc contents).drop retentionCount).length) := by
  have hred : cleanupOldBackups del (.success (some contents)) retentionCount
      = deleteLoop del ((sortByLastModifiedDesc contents).drop retentionCount) := rfl
  have hcl : cleanupOldBackups del (.success (some contents)) retentionCount
      = (l1.filterMap S3Object.key ++ [k], Except.error ()) := by
    rw [hred, hsplit]
    exact deleteLoop_stops_at_failure del l1 l2 o k hpre hk hfail
  refine ⟨hcl, fun hne => ?_⟩
  rw [hcl, hsplit]
  have hle := List.length_filterMap_le S3Object.key l1
  have hl2 : 0 < l2.length := List.length_pos.mpr hne
  simp only [List.length_append, List.length_cons, List.length_nil]
  omega

/-- Witness for the amended C2, at the counterexample's input. -/
theorem cleanup_abort_on_delete_failure_witness :
    ((sortByLastModifiedDesc cleanupContents).drop 1
      = [] ++ (⟨some "c", some 2⟩ : S3Object) :: [⟨some "b", some 1⟩]) ∧
    cleanupOldBackups (fun k => k != "c") (.success (some cleanupContents)) 1
      = (List.filterMap S3Object.key [] ++ ["c"], Except.error ()) :=
  ⟨by decide,
    (cleanup_abort_on_delete_failure (fun k => k != "c") cleanupContents
      [] [⟨some "b", some 1⟩] ⟨some "c", some 2⟩ "c" 1 (by decide)
      (by intro x hx; cases hx) rfl (by decide)).1⟩

/-- A cycle whose dump and upload (including cleanup) succeed but whose
local `unlink` fails. -/
def localDeleteFails : CycleOutcome :=
  ⟨true, true, .success none, fun _ => true, false⟩

/-- Counterexample for C3 as stated: dump and upload succeeded, the
local delete failed, and the due-state was NOT updated to the success
timestamp — the catch at backup.ts line 86 skips
`lastBackupTimes.set`. -/
theorem local_delete_failure_counterexample :
    localDeleteFails.dumpOk = true ∧
    uploadToS3 localDeleteFails 5 = Except.ok () ∧
    localDeleteFails.localDeleteOk = false ∧
    runBackup (fun _ => none) .hourly 42 localDeleteFails 5 .hourly = none ∧
    runBackup (fun _ => none) .hourly 42 localDeleteFails 5 .hourly ≠ some 42 :=
  ⟨rfl, rfl, rfl, rfl, by decide⟩

/-- C3 amended: in a run whose dump and upload succeeded, a failure of
the local-file deletion makes the run take the failure path: the error
is caught at the trigger boundary, the due-state is left unchanged, and
the cadence is not marked succeeded. -/
theorem local_delete_failure_aborts_run (st : DueMap) (f : BackupFrequency)
    (now : Int) (out : CycleOutcome) (retentionCount : Nat)
    (hd : out.dumpOk = true) (hu : uploadToS3 out retentionCount = Except.ok ())
    (hl : out.localDeleteOk = false) :
    runBackup st f now out retentionCount = st := by
  have htry : runBackupTry out retentionCount = Except.error () := by
    simp only [runBackupTry, hd, hu, hl, if_true, if_false]
    rfl
  exact runBackup_of_error st f now out retentionCount htry

/-- Witness for the amended C3, at the counterexample's input. -/
theorem local_delete_failure_aborts_run_witness :
    localDeleteFails.dumpOk = true ∧
    localDeleteFails.localDeleteOk = false ∧
    runBackup (fun _ => none) .hourly 42 localDeleteFails 5 = (fun _ => none : DueMap) :=
  ⟨rfl, rfl,
    local_delete_failure_aborts_run (fun _ => none) .hourly 42 localDeleteFails 5
      rfl rfl rfl⟩

/-- A tick step for one interval leaves every other cadence's entry
unchanged. -/
theorem tickStep_other (nowAt : BackupFrequency → Int)
    (outcomes : BackupFrequency → CycleOutcome) (retentionCount : Nat)
    (st : DueMap) (i : BackupInterval) (g : BackupFrequency)
    (hne : g ≠ i.frequency) :
    tickStep nowAt outcomes retentionCount st i g = st g := by
  unfold tickStep
  by_cases h : shouldRunBackup st i.frequency (nowAt i.frequency) <;>
    simp [h, runBackup_other st i.frequency g _ _ _ hne]

/-- A tick step's effect on its own cadence's entry. -/
theorem tickStep_self (nowAt : BackupFrequency → Int)
    (outcomes : BackupFrequency → CycleOutcome) (retentionCount : Nat)
    (st : DueMap) (i : BackupInterval) :
    tickStep nowAt outcomes retentionCount st i i.frequency
      = if shouldRunBackup st i.frequency (nowAt i.frequency) = true then
          (match runBackupTry (outcomes i.frequency) retentionCount with
           | .ok _ => some (nowAt i.frequency)
           | .error _ => st i.frequency)
        else st i.frequency := by
  unfold tickStep
  by_cases h : shouldRunBackup st i.frequency (nowAt i.frequency)
  · simp only [h, if_true]
    cases hr : runBackupTry (outcomes i.frequency) retentionCount with
    | ok u => cases u; simp [runBackup, hr, mapSet]
    | error u => cases u; simp [runBackup, hr]
  · simp [h]

/-- Each cadence's entry after a full tick depends only on that
cadence's own due-check and trigger outcome: the fold over
`BACKUP_INTERVALS` processes each cadence exactly once and no step
disturbs the others. -/
theorem processTick_apply (st : DueMap) (nowAt : BackupFrequency → Int)
    (outcomes : BackupFrequency → CycleOutcome) (retentionCount : Nat)
    (g : BackupFrequency) :
    processTick st nowAt outcomes retentionCount g
      = if shouldRunBackup st g (nowAt g) = true then
          (match runBackupTry (outcomes g) retentionCount with
           | .ok _ => some (nowAt g)
           | .error _ => st g)
        else st g := by
  have hunfold : processTick st nowAt outcomes retentionCount
      = tickStep nowAt outcomes retentionCount
          (tickStep nowAt outcomes retentionCount
            (tickStep nowAt outcomes retentionCount
              (tickStep nowAt outcomes retentionCount st ⟨.weekly, 604800000⟩)
              ⟨.daily, 86400000⟩)
            ⟨.hourly, 3600000⟩)
          ⟨.tenMin, 600000⟩ := rfl
  rw [hunfold]
  cases g with
  | weekly =>
    rw [tickStep_other _ _ _ _ _ _ (by decide), tickStep_other _ _ _ _ _ _ (by decide),
      tickStep_other _ _ _ _ _ _ (by decide)]
    exact tickStep_self nowAt outcomes retentionCount st ⟨.weekly, 604800000⟩
  | daily =>
    rw [tickStep_other _ _ _ _ _ _ (by decide), tickStep_other _ _ _ _ _ _ (by decide)]
    have hpre : tickStep nowAt outcomes retentionCount st ⟨.weekly, 604800000⟩ .daily
        = st .daily := tickStep_other _ _ _ _ _ _ (by decide)
    rw [tickStep_self nowAt outcomes retentionCount _ ⟨.daily, 86400000⟩]
    rw [shouldRunBackup_congr _ st .daily _ hpre, hpre]
  | hourly =>
    rw [tickStep_other _ _ _ _ _ _ (by decide)]
    have hpre : tickStep nowAt outcomes retentionCount
        (tickStep nowAt outcomes retentionCount st ⟨.weekly, 604800000⟩)
        ⟨.daily, 86400000⟩ .hourly = st .hourly := by
      rw [tickStep_other _ _ _ _ _ _ (by decide), tickStep_other _ _ _ _ _ _ (by decide)]
    rw [tickStep_self nowAt outcomes retentionCount _ ⟨.hourly, 3600000⟩]
    rw [shouldRunBackup_congr _ st .hourly _ hpre, hpre]
  | tenMin =>
    have hpre : tickStep nowAt outcomes retentionCount
        (tickStep nowAt outcomes retentionCount
          (tickStep nowAt outcomes retentionCount st ⟨.weekly, 604800000⟩)
          ⟨.daily, 86400000⟩)
        ⟨.hourly, 3600000⟩ .tenMin = st .tenMin := by
      rw [tickStep_other _ _ _ _ _ _ (by decide), tickStep_other _ _ _ _ _ _ (by decide),
        tickStep_other _ _ _ _ _ _ (by decide)]
    rw [tickStep_self nowAt outcomes retentionCount _ ⟨.tenMin, 600000⟩]
    rw [shouldRunBackup_congr _ st .tenMin _ hpre, hpre]

/-- C8: an error inside one cadence's trigger is caught at the trigger
boundary (`runBackup` never throws) and does not escalate to the tick
loop: the failing cadence's entry is left unchanged, the cadence is
still due at any later instant (so it remains due on the next tick),
and every cadence of the tick — before or after the failing one — is
still evaluated according to its own due-check and trigger outcome. -/
theorem trigger_failure_contained (st : DueMap) (nowAt : BackupFrequency → Int)
    (outcomes : BackupFrequency → CycleOutcome) (retentionCount : Nat)
    (f : BackupFrequency)
    (hfail : runBackupTry (outcomes f) retentionCount = Except.error ()) :
    (processTick st nowAt outcomes retentionCount f = st f) ∧
    (∀ t, nowAt f ≤ t → shouldRunBackup st f (nowAt f) = true →
      shouldRunBackup (processTick st nowAt outcomes retentionCount) f t = true) ∧
    (∀ g, processTick st nowAt outcomes retentionCount g
        = if shouldRunBackup st g (nowAt g) = true then
            (match runBackupTry (outcomes g) retentionCount with
             | .ok _ => some (nowAt g)
             | .error _ => st g)
          else st g) := by
  have h1 : processTick st nowAt outcomes retentionCount f = st f := by
    rw [processTick_apply]
    by_cases h : shouldRunBackup st f (nowAt f) = true <;> simp [h, hfail]
  refine ⟨h1, ?_, fun g => processTick_apply st nowAt outcomes retentionCount g⟩
  intro t ht hdue
  rw [shouldRunBackup_congr _ st f t h1]
  cases hst : st f with
  | none => simp [shouldRunBackup, hst]
  | some t0 =>
    simp only [shouldRunBackup, hst, decide_eq_true_eq] at hdue ⊢
    omega

/-- A cycle whose dump step fails. -/
def cycleDumpFails : CycleOutcome :=
  ⟨false, true, .success none, fun _ => true, true⟩

/-- Witness for C8: a failing hourly trigger leaves the empty map's
hourly entry unchanged. -/
theorem trigger_failure_contained_witness :
    runBackupTry cycleDumpFails 5 = Except.error () ∧
    processTick (fun _ => none) (fun _ => 0) (fun _ => cycleDumpFails) 5 .hourly
      = none :=
  ⟨rfl,
    (trigger_failure_contained (fun _ => none) (fun _ => 0) (fun _ => cycleDumpFails)
      5 .hourly rfl).1⟩

/-- C9: the declared cadence order is weekly, daily, hourly, 10min —
coarsest first, with strictly decreasing durations — and a tick is the
strictly sequential composition of the four per-cadence steps in that
order (no concurrent cadence execution: each step starts from the map
the previous step returned). -/
theorem tick_order_sequential :
    BACKUP_INTERVALS.map BackupInterval.frequency
        = [.weekly, .daily, .hourly, .tenMin] ∧
    BACKUP_INTERVALS.map BackupInterval.milliseconds
        = [604800000, 86400000, 3600000, 600000] ∧
    List.Pairwise (fun a b : BackupInterval => b.milliseconds < a.milliseconds)
      BACKUP_INTERVALS ∧
    ∀ (st : DueMap) (nowAt : BackupFrequency → Int)
      (outcomes : BackupFrequency → CycleOutcome) (retentionCount : Nat),
      processTick st nowAt outcomes retentionCount
        = tickStep nowAt outcomes retentionCount
            (tickStep nowAt outcomes retentionCount
              (tickStep nowAt outcomes retentionCount
                (tickStep nowAt outcomes retentionCount st ⟨.weekly, 604800000⟩)
                ⟨.daily, 86400000⟩)
              ⟨.hourly, 3600000⟩)
            ⟨.tenMin, 600000⟩ :=
  ⟨by decide, by decide, by decide, fun _ _ _ _ => rfl⟩

/-- C10: the manual/startup/single-shot cycle (`backup()`) runs under
the `'10min'` cadence: it is exactly `runBackup('10min')`, the upload
key and the cleanup listing use the `<subfolder>/10min/` prefix, and on
success only the 10min cadence's due-state is set to the success
timestamp — every other cadence's entry is untouched. -/
theorem manual_backup_uses_tenMin (st : DueMap) (now : Int) (out : CycleOutcome)
    (retentionCount : Nat) :
    (backup st now out retentionCount = runBackup st .tenMin now out retentionCount) ∧
    (∀ subfolder filename, s3Key subfolder .tenMin filename
        = cadencePfx subfolder .tenMin ++ filename) ∧
    (∀ subfolder, cadencePfx subfolder .tenMin = bucketPfx subfolder ++ "10min/") ∧
    (runBackupTry out retentionCount = Except.ok () →
      backup st now out retentionCount .tenMin = some now ∧
      ∀ g, g ≠ .tenMin → backup st now out retentionCount g = st g) := by
  refine ⟨rfl, fun _ _ => rfl, fun subfolder => ?_, fun hok => ⟨?_, ?_⟩⟩
  · show bucketPfx subfolder ++ "10min" ++ "/" = bucketPfx subfolder ++ "10min/"
    rw [String.append_assoc]
    rfl
  · exact runBackup_self_of_ok st .tenMin now out retentionCount hok
  · intro g hg
    exact runBackup_other st .tenMin g now out retentionCount hg

/-- Witness for C10: a concrete successful manual cycle at time 7 sets
the 10min entry. -/
theorem manual_backup_uses_tenMin_witness :
    runBackupTry cycleOk 5 = Except.ok () ∧
    backup (fun _ => none) 7 cycleOk 5 .tenMin = some 7 :=
  ⟨rfl, ((manual_backup_uses_tenMin (fun _ => none) 7 cycleOk 5).2.2.2 rfl).1⟩

/-- The single-shot configuration: `SINGLE_SHOT_MODE` set. -/
def singleShotFlags : EnvFlags := ⟨false, true⟩

/-- C1: evaluation of `main` in single-shot mode at a failing dump.
The process does run exactly one cycle and never enters the tick loop,
but it exits with code 0 even though the dump failed: the error is
swallowed by `runBackup`'s catch (backup.ts line 86), so the
`process.exit(1)` handler in `tryBackup` is unreachable and the
spec's exit-1-on-failure behaviour does not occur. -/
theorem single_shot_exits_zero_on_dump_failure :
    cycleDumpFails.dumpOk = false ∧
    singleShotFlags.singleShotMode = true ∧
    (main singleShotFlags (fun _ => none) 0 cycleDumpFails 5).fate
      = ProcessFate.exited 0 ∧
    (main singleShotFlags (fun _ => none) 0 cycleDumpFails 5).cyclesRun = 1 :=
  ⟨rfl, rfl, rfl, rfl⟩

end PgBackups
